import Mathlib

/-!
Verification of the geo-narrator travel-guide application against its
natural-language specification.

The development shallowly embeds the TypeScript source:
pure helpers become Lean functions, the React `ConversationView` component
state becomes an explicit `ConvState` record with each callback embedded as a
state-transition function, and machine floats are modelled by rationals.
The audio codec utilities (`utils/audioUtils.ts`) are imported by the
components but the file itself is not part of the source tree, so those
functions are modelled from the specification (section 4.1) and marked as
such in their doc comments.
-/

namespace GeoNarrator

/-! ## Generic string helpers

JS `String.prototype.includes` and substring search, implemented over the
character list of a string so that everything evaluates by `decide`/`rfl`. -/

/-- Whether `pat` is a leading segment of `l` (character-by-character). -/
def isPrefixOfChars : List Char → List Char → Bool
  | [], _ => true
  | _ :: _, [] => false
  | a :: as, b :: bs => a == b && isPrefixOfChars as bs

/-- Whether the pattern `pat` occurs contiguously anywhere inside the list. -/
def occursIn (pat : List Char) : List Char → Bool
  | [] => isPrefixOfChars pat []
  | c :: rest => isPrefixOfChars pat (c :: rest) || occursIn pat rest

/-- JS `s.includes(pat)`: substring test (true for the empty pattern). -/
def strIncludes (s pat : String) : Bool :=
  occursIn pat.toList s.toList

/-! ## Audio codec utilities

Modelled from the spec: `utils/audioUtils.ts` is imported by both views but
is not present under `src/`, so `createAudioBlob` (alias `createBlob`) and
`decodeAudioData` are modelled from spec section 4.1.  Floating-point
samples are modelled by rationals; the base64 text layer is elided because
the spec states that `decode` exactly reverses `encode` on byte sequences,
so the round trip is modelled at the byte level. -/

/-- Modelled from the spec: clamp a sample to the interval from -1 to 1
before quantizing (spec 4.1, createAudioBlob). -/
def clampSample (s : ℚ) : ℚ := max (-1) (min 1 s)

/-- Modelled from the spec: quantize a clamped sample to a signed 16-bit
integer.  The scale factor 32768 matches the decoding divisor the spec
fixes for `decodeAudioData`; the top code is capped at 32767 so that the
sample 1 stays inside the 16-bit range instead of wrapping. -/
def quantizeSample (s : ℚ) : ℤ := min 32767 ⌊clampSample s * 32768⌋

/-- Little-endian byte pair of a 16-bit integer (two is-complement). -/
def int16ToBytes (i : ℤ) : List ℕ :=
  let u : ℕ := (i % 65536).toNat
  [u % 256, u / 256]

/-- PCM body of the outbound audio blob: each sample becomes two bytes. -/
def pcmEncode : List ℚ → List ℕ
  | [] => []
  | s :: rest => int16ToBytes (quantizeSample s) ++ pcmEncode rest

/-- Outbound audio blob: base64 payload (modelled at the byte level) plus
the fixed 16 kHz mono mime tag (spec 4.1). -/
structure AudioBlobData where
  data : List ℕ
  mimeType : String
  deriving Repr, DecidableEq

/-- Modelled from the spec: `createAudioBlob` converts floating-point
samples into 16-bit little-endian PCM, clamping each sample to the
interval from -1 to 1 before quantizing, and tags the payload with a fixed
16 kHz mono format (spec 4.1). -/
def createAudioBlob (samples : List ℚ) : AudioBlobData :=
  { data := pcmEncode samples, mimeType := "audio/pcm;rate=16000" }

/-- Reassemble a signed 16-bit value from a little-endian byte pair. -/
def bytesToInt16 (lo hi : ℕ) : ℤ :=
  if lo % 256 + 256 * (hi % 256) < 32768 then ((lo % 256 + 256 * (hi % 256) : ℕ) : ℤ)
  else ((lo % 256 + 256 * (hi % 256) : ℕ) : ℤ) - 65536

/-- Modelled from the spec: interpret raw bytes as 16-bit little-endian
PCM and normalize each sample by dividing by 32768; a trailing byte that
does not complete a sample is truncated (spec 4.1). -/
def pcmSamples : List ℕ → List ℚ
  | lo :: hi :: rest => ((bytesToInt16 lo hi : ℚ) / 32768) :: pcmSamples rest
  | _ => []

/-- De-interleave a flat sample sequence into the given channel count:
sample `i` belongs to channel `i % channels`. -/
def deinterleave (channels : ℕ) (samples : List ℚ) : List (List ℚ) :=
  (List.range channels).map fun c =>
    (samples.enum.filter (fun p => p.1 % channels == c)).map (·.2)

/-- Modelled from the spec: `decodeAudioData` interprets raw bytes as
16-bit little-endian PCM, normalizes to the interval from -1 to 1 by
dividing by 32768, and de-interleaves across the given channel count
(spec 4.1).  The target playback rate does not affect the sample values. -/
def decodeAudioData (bytes : List ℕ) (sampleRate channels : ℕ) : List (List ℚ) :=
  let _ := sampleRate
  deinterleave channels (pcmSamples bytes)

/-- Duration in seconds of an inbound 24 kHz mono audio chunk, as exposed
by the decoded buffer: complete frames divided by the sample rate. -/
def segmentSeconds (bytes : List ℕ) : ℚ :=
  ((pcmSamples bytes).length : ℚ) / 24000

/-! ### Codec lemmas -/

theorem int16_roundtrip (i : ℤ) (hlo : -32768 ≤ i) (hhi : i ≤ 32767) :
    bytesToInt16 ((i % 65536).toNat % 256) ((i % 65536).toNat / 256) = i := by
  unfold bytesToInt16
  split <;> omega

theorem quantize_lb (s : ℚ) : -32768 ≤ quantizeSample s := by
  unfold quantizeSample clampSample
  have h1 : (-1 : ℚ) ≤ max (-1) (min 1 s) := le_max_left _ _
  have h2 : (-32768 : ℚ) ≤ max (-1) (min 1 s) * 32768 := by nlinarith
  have h3 : (-32768 : ℤ) ≤ ⌊max (-1) (min 1 s) * 32768⌋ := by
    rw [Int.le_floor]; push_cast; exact h2
  omega

theorem quantize_ub (s : ℚ) : quantizeSample s ≤ 32767 := min_le_left _ _

theorem pcm_roundtrip (samples : List ℚ) :
    pcmSamples (pcmEncode samples) =
      samples.map (fun s => ((quantizeSample s : ℚ) / 32768)) := by
  induction samples with
  | nil => rfl
  | cons s rest ih =>
    have hb : int16ToBytes (quantizeSample s) =
        [((quantizeSample s) % 65536).toNat % 256,
         ((quantizeSample s) % 65536).toNat / 256] := rfl
    simp only [pcmEncode, hb, List.cons_append, List.nil_append, List.append_eq,
      pcmSamples, List.map_cons, ih,
      int16_roundtrip _ (quantize_lb s) (quantize_ub s)]

theorem quantize_near_clamp (s : ℚ) :
    |((quantizeSample s : ℚ) / 32768) - clampSample s| ≤ 1 / 32768 := by
  set c : ℚ := clampSample s with hc
  have hcub : c ≤ 1 := by rw [hc]; unfold clampSample; rcases le_total 1 s with h | h <;> simp [h]
  set f : ℤ := ⌊c * 32768⌋ with hf
  have hf1 : (f : ℚ) ≤ c * 32768 := Int.floor_le _
  have hf2 : c * 32768 < (f : ℚ) + 1 := Int.lt_floor_add_one _
  by_cases hq : f ≤ 32767
  · have : quantizeSample s = f := by
      unfold quantizeSample; rw [← hc, ← hf]; exact min_eq_right hq
    rw [this, abs_le]
    constructor <;> nlinarith
  · push_neg at hq
    have hfle : f ≤ 32768 := by
      have : c * 32768 ≤ 32768 := by nlinarith
      have := Int.floor_le_floor (α := ℚ) this
      simpa [hf] using this
    have hfeq : f = 32768 := le_antisymm hfle hq
    have hc1 : c = 1 := by
      have : (32768 : ℚ) ≤ c * 32768 := by
        rw [hfeq] at hf1; exact_mod_cast hf1
      nlinarith
    have hqv : quantizeSample s = 32767 := by
      unfold quantizeSample; rw [← hc, ← hf, hfeq]; rfl
    rw [hqv, hc1]
    rw [abs_le]
    constructor <;> norm_num

theorem enumFrom_snd (n : ℕ) (l : List ℚ) :
    (List.enumFrom n l).map (·.2) = l := by
  induction l generalizing n with
  | nil => rfl
  | cons x rest ih => simp only [List.enumFrom, List.map_cons, ih]

theorem deinterleave_one (samples : List ℚ) :
    deinterleave 1 samples = [samples] := by
  unfold deinterleave
  have h1 : List.range 1 = [0] := rfl
  rw [h1]
  simp only [List.map_cons, List.map_nil, List.enum, Nat.mod_one,
    beq_self_eq_true, List.filter_true]
  rw [enumFrom_snd]

/-! ## AI gateway: place discovery (src/services/geminiService.ts)

`getNearbyPlaces` extracts a fenced JSON block from the service response
text with the pattern anchored on the fence markers, parses it with the
platform JSON parser, and rethrows any failure inside the try block as the
single user-facing format error.  The platform `JSON.parse` builtin is a
parameter of the embedding (`parseJson`); the `Json` type records that
any syntactically valid JSON value can come back from it. -/

/-- JSON values, as the platform parser can produce them. -/
inductive Json where
  | null : Json
  | bool (b : Bool) : Json
  | num (q : ℚ) : Json
  | str (s : String) : Json
  | arr (xs : List Json) : Json
  | obj (kvs : List (String × Json)) : Json

/-- Characters opening a fenced JSON block, per the pattern in
`getNearbyPlaces`. -/
def fenceOpen : List Char := "```json\n".toList

/-- Characters closing a fenced JSON block, per the same pattern. -/
def fenceClose : List Char := "\n```".toList

/-- Characters strictly before the first occurrence of `pat`, or `none`
when `pat` does not occur.  This is the non-greedy capture of the
pattern: the shortest run of characters up to the closing fence. -/
def takeUntilSeq (pat : List Char) : List Char → Option (List Char)
  | [] => none
  | c :: rest =>
    if isPrefixOfChars pat (c :: rest) then some []
    else
      match takeUntilSeq pat rest with
      | some content => some (c :: content)
      | none => none

/-- Leftmost match of the fenced-block pattern: at each position, if the
opening fence starts here and a closing fence follows, capture the
characters between them; otherwise move one character right.  This mirrors
the leftmost, non-greedy semantics of the regex in `getNearbyPlaces`. -/
def findFenced : List Char → Option (List Char)
  | [] => none
  | c :: rest =>
    if isPrefixOfChars fenceOpen (c :: rest) then
      match takeUntilSeq fenceClose (List.drop fenceOpen.length (c :: rest)) with
      | some content => some content
      | none => findFenced rest
    else findFenced rest

/-- The fence-extraction step of `getNearbyPlaces`: the capture group of
the fence pattern, with an empty capture treated as missing because the
source tests the captured group for JS truthiness. -/
def extractJsonBlock (text : String) : Option String :=
  match findFenced text.toList with
  | none => none
  | some content =>
    if String.mk content = "" then none else some (String.mk content)

/-- The single user-facing format error thrown by `getNearbyPlaces` when
the fence is absent or its content does not parse. -/
def badFormatMsg : String := "The AI returned an unexpected format. Please try again."

/-- The place-extraction path of `getNearbyPlaces`: match the fence
pattern, throw when the block or its capture is missing, parse the
captured string with the platform parser, and surface any failure in this
block as the single format error.  `parseJson` stands for the platform
`JSON.parse` builtin; the parsed value is returned as the places result
without any further inspection.  Grounding-source collection happens
before this block and is independent of it. -/
def getNearbyPlaces (parseJson : String → Option Json) (text : String) :
    Except String Json :=
  match extractJsonBlock text with
  | none => .error badFormatMsg
  | some content =>
    match parseJson content with
    | none => .error badFormatMsg
    | some v => .ok v

/-! ## Discovery flow decoration (DiscoverView)

`getCategoryImage` lowers the category, substitutes the default key when
the category is missing or lowers to the empty string (JS falsiness), and
walks the fixed key/image table in insertion order returning the image of
the first key that occurs inside the lowered category, with the generic
image as the final fallback. -/

/-- Pexels image for the nature category. -/
def natureImg : String :=
  "https://images.pexels.com/photos/3225517/pexels-photo-3225517.jpeg?auto=compress&cs=tinysrgb&w=1260&h=750&dpr=1"

/-- Pexels image for the architecture category. -/
def architectureImg : String :=
  "https://images.pexels.com/photos/161439/architecture-building-france-landmark-161439.jpeg?auto=compress&cs=tinysrgb&w=1260&h=750&dpr=1"

/-- Pexels image for the history category. -/
def historyImg : String :=
  "https://images.pexels.com/photos/326900/pexels-photo-326900.jpeg?auto=compress&cs=tinysrgb&w=1260&h=750&dpr=1"

/-- Pexels image for the food category. -/
def foodImg : String :=
  "https://images.pexels.com/photos/262978/pexels-photo-262978.jpeg?auto=compress&cs=tinysrgb&w=1260&h=750&dpr=1"

/-- Pexels image for the art category. -/
def artImg : String :=
  "https://images.pexels.com/photos/102127/pexels-photo-102127.jpeg?auto=compress&cs=tinysrgb&w=1260&h=750&dpr=1"

/-- Generic fallback image (the `other` entry). -/
def otherImg : String :=
  "https://images.pexels.com/photos/417074/pexels-photo-417074.jpeg?auto=compress&cs=tinysrgb&w=1260&h=750&dpr=1"

/-- The category table of `getCategoryImage`, in JS insertion order. -/
def categoryEntries : List (String × String) :=
  [("nature", natureImg), ("architecture", architectureImg),
   ("history", historyImg), ("food", foodImg), ("art", artImg),
   ("other", otherImg)]

/-- The key loop of `getCategoryImage`: first entry whose key occurs in
the lowered category wins; the generic image is the fallback. -/
def lookupCategory : List (String × String) → String → String
  | [], _ => otherImg
  | (k, v) :: rest, cl => if strIncludes cl k then v else lookupCategory rest cl

/-- `getCategoryImage` from DiscoverView: `none` models a missing
category; an empty lowered category is replaced by the default key
because the source applies JS truthiness to it. -/
def getCategoryImage (category : Option String) : String :=
  let categoryLower :=
    match category with
    | none => "other"
    | some c => if c.toLower = "" then "other" else c.toLower
  lookupCategory categoryEntries categoryLower

/-- A place record as parsed from the discovery response
(src/unnamed/part_000, PlaceInfo). -/
structure PlaceInfo where
  name : String
  description : String
  oneLiner : String
  category : String
  imageUrl : Option String
  deriving Repr, DecidableEq

/-- Decoration applied per place in `handleFetchPlaces`: attach the
category image, leaving the other fields untouched. -/
def decoratePlace (p : PlaceInfo) : PlaceInfo :=
  { p with imageUrl := some (getCategoryImage (some p.category)) }

/-- The success path of `handleFetchPlaces`: decorate every parsed place. -/
def decoratePlaces (places : List PlaceInfo) : List PlaceInfo :=
  places.map decoratePlace

/-- Image choice as the spec words it: a case-insensitive substring match
of the category against the fixed five-term vocabulary in order, with the
generic image when no term matches.  Stated separately from
`getCategoryImage` so the two can be compared. -/
def specCategoryImage (category : String) : String :=
  if strIncludes category.toLower "nature" then natureImg
  else if strIncludes category.toLower "architecture" then architectureImg
  else if strIncludes category.toLower "history" then historyImg
  else if strIncludes category.toLower "food" then foodImg
  else if strIncludes category.toLower "art" then artImg
  else otherImg

theorem getCategoryImage_eq_specImage (c : String) :
    getCategoryImage (some c) = specCategoryImage c := by
  by_cases h : c.toLower = ""
  · simp only [getCategoryImage, h, if_pos, specCategoryImage]
    decide
  · simp only [getCategoryImage, h, if_neg, ite_false, specCategoryImage,
      categoryEntries, lookupCategory]
    split_ifs <;> rfl

theorem specImage_ne_empty (c : String) : specCategoryImage c ≠ "" := by
  unfold specCategoryImage
  split_ifs <;> decide

/-! ## Live conversation flow (ConversationView)

The component state — React state plus the mutable refs — becomes an
explicit `ConvState` record, and every callback becomes a total state
transition.  Browser-side facts the code only observes (the playback
clock, the wall clock used for transcript identifiers, microphone
permission, a session-close failure) enter as parameters.  Two ghost
fields record externally visible side effects that the refs themselves
forget: `stoppedSegments` logs every playback segment on which `stop`
was called, and `releasedTracks` logs the activity flags of media tracks
after the stream reference was dropped. -/

/-- Speaker tag of a transcript entry. -/
inductive Speaker where
  | user : Speaker
  | model : Speaker
  deriving Repr, DecidableEq

/-- A transcript entry (src/unnamed/part_000, Transcript). -/
structure Transcript where
  id : ℕ
  speaker : Speaker
  text : String
  deriving Repr, DecidableEq

/-- A playback segment scheduled on the output timeline: its start time
and its duration, both in seconds. -/
structure Segment where
  start : ℚ
  duration : ℚ
  deriving Repr, DecidableEq

/-- An inbound live-session message, with the fields the handler reads.
`audioData` holds the decoded bytes of the base64 payload when one is
present (a missing or empty payload is `none`, matching the JS
truthiness test on the base64 string). -/
structure LiveServerMessage where
  inputTranscriptionText : Option String
  outputTranscriptionText : Option String
  turnComplete : Bool
  audioData : Option (List ℕ)
  interrupted : Bool
  deriving Repr, DecidableEq

/-- The state of `ConversationView`: React state (`isSessionActive`,
`transcripts`, `error`) and the refs.  An audio context reference is
`none` when the ref is null and `some b` when it holds a context whose
open flag is `b`.  The media stream holds the activity flag of each of
its tracks. -/
structure ConvState where
  isSessionActive : Bool
  transcripts : List Transcript
  error : Option String
  sessionPromise : Bool
  mediaStream : Option (List Bool)
  inputCtx : Option Bool
  outputCtx : Option Bool
  outputNode : Bool
  scriptProcessor : Bool
  mediaStreamSource : Bool
  sources : List Segment
  nextStartTime : ℚ
  currentInputTranscription : String
  currentOutputTranscription : String
  stoppedSegments : List Segment
  releasedTracks : List Bool
  deriving Repr, DecidableEq

/-- Closing step for an audio-context ref in `cleanup`: an open context
is closed and the ref nulled; a null ref, or a ref holding an already
closed context, is left alone. -/
def closeCtx : Option Bool → Option Bool
  | some true => none
  | o => o

/-- Track flags released by `cleanup`: every track of the held stream is
stopped before the reference is dropped. -/
def releasedOf : Option (List Bool) → List Bool
  | some ts => ts.map fun _ => false
  | none => []

/-- `cleanup` from ConversationView: stop and clear all scheduled
segments, disconnect and null the capture and processing nodes, close
both audio contexts, and stop every track of the microphone stream
before dropping it. -/
def cleanup (s : ConvState) : ConvState :=
  { s with
    stoppedSegments := s.stoppedSegments ++ s.sources,
    sources := [],
    scriptProcessor := false,
    mediaStreamSource := false,
    inputCtx := closeCtx s.inputCtx,
    outputCtx := closeCtx s.outputCtx,
    releasedTracks := s.releasedTracks ++ releasedOf s.mediaStream,
    mediaStream := none }

/-- `stopConversation` from ConversationView: mark the session inactive,
ask the session handle to close — a close failure is swallowed by the
try/catch, so the resulting state does not depend on `closeFails` — null
the promise ref, then run `cleanup`. -/
def stopConversation (closeFails : Bool) (s : ConvState) : ConvState :=
  let _ := closeFails
  cleanup { s with isSessionActive := false, sessionPromise := false }

/-- The user-facing message set when starting fails on microphone access. -/
def micPermissionErrorMsg : String :=
  "Failed to start conversation. Please check microphone permissions."

/-- The single generic message set by the transport-error callback. -/
def conversationErrorMsg : String :=
  "An error occurred during the conversation."

/-- `startConversation` from ConversationView: clear error, transcripts
and both transcription buffers; then, when microphone access succeeds,
acquire the stream, open both audio contexts and the output gain node,
reset the playback watermark and the scheduled-segment set, and store
the live-session promise.  When microphone access fails, only the
permission error is set. -/
def startConversation (micOk : Bool) (s : ConvState) : ConvState :=
  let s1 := { s with
    error := none, transcripts := [],
    currentInputTranscription := "", currentOutputTranscription := "" }
  if micOk then
    { s1 with
      mediaStream := some [true],
      inputCtx := some true,
      outputCtx := some true,
      outputNode := true,
      nextStartTime := 0,
      sources := [],
      sessionPromise := true }
  else
    { s1 with error := some micPermissionErrorMsg }

/-- The Start control of the rendered view: the Start button is only
rendered while no session is active, so a start click reaches
`startConversation` exactly when `isSessionActive` is false. -/
def clickStart (micOk : Bool) (s : ConvState) : ConvState :=
  if s.isSessionActive then s else startConversation micOk s

/-- The `onopen` callback: mark the session active and wire up the
capture and processing nodes. -/
def onOpenHandler (s : ConvState) : ConvState :=
  { s with isSessionActive := true, mediaStreamSource := true, scriptProcessor := true }

/-- The natural-completion listener of a scheduled segment: remove just
that segment from the active set. -/
def onSegmentEnded (seg : Segment) (s : ConvState) : ConvState :=
  { s with sources := s.sources.erase seg }

/-- The `onmessage` callback, in source order: append any partial
transcription fragments to the two buffers; on a turn-complete signal
flush the buffers into the transcript log (a user entry when the input
buffer is non-empty, then a model entry when the output buffer is
non-empty, with identifiers `now` and `now + 1`) and clear the buffers;
when an audio payload is present and the output context and gain node
exist, schedule the decoded segment at the later of the watermark and
the playback clock and advance the watermark by the segment duration;
finally, on an interruption signal, stop every scheduled segment, clear
the set and reset the watermark to zero.  `clock` is the output-context
playback time read by the handler and `now` the wall-clock identifier
base. -/
def onMessageHandler (clock : ℚ) (now : ℕ) (msg : LiveServerMessage)
    (s : ConvState) : ConvState :=
  let s1 := { s with
    currentInputTranscription :=
      s.currentInputTranscription ++ (msg.inputTranscriptionText.getD ""),
    currentOutputTranscription :=
      s.currentOutputTranscription ++ (msg.outputTranscriptionText.getD "") }
  let s2 :=
    if msg.turnComplete then
      { s1 with
        transcripts := s1.transcripts
          ++ (if s1.currentInputTranscription = "" then []
              else [⟨now, Speaker.user, s1.currentInputTranscription⟩])
          ++ (if s1.currentOutputTranscription = "" then []
              else [⟨now + 1, Speaker.model, s1.currentOutputTranscription⟩]),
        currentInputTranscription := "",
        currentOutputTranscription := "" }
    else s1
  let s3 :=
    match msg.audioData with
    | some bytes =>
      if s2.outputCtx.isSome && s2.outputNode then
        { s2 with
          nextStartTime := max s2.nextStartTime clock + segmentSeconds bytes,
          sources := s2.sources ++
            [⟨max s2.nextStartTime clock, segmentSeconds bytes⟩] }
      else s2
    | none => s2
  if msg.interrupted then
    { s3 with
      stoppedSegments := s3.stoppedSegments ++ s3.sources,
      sources := [],
      nextStartTime := 0 }
  else s3

/-- The `onerror` callback: set the single generic conversation error,
then funnel into `stopConversation`. -/
def onErrorHandler (closeFails : Bool) (s : ConvState) : ConvState :=
  stopConversation closeFails { s with error := some conversationErrorMsg }

/-- The `onclose` callback: funnel into `stopConversation`.  It sets no
error message. -/
def onCloseHandler (closeFails : Bool) (s : ConvState) : ConvState :=
  stopConversation closeFails s

/-- Torn-down resources, as the stop path must leave them: no media
stream held and every released track inactive, neither audio context
open, the scheduled-segment set empty, and the capture and processing
node refs null. -/
def cleanedUp (s : ConvState) : Prop :=
  s.mediaStream = none ∧
  (∀ t ∈ s.releasedTracks, t = false) ∧
  s.inputCtx ≠ some true ∧
  s.outputCtx ≠ some true ∧
  s.sources = [] ∧
  s.scriptProcessor = false ∧
  s.mediaStreamSource = false

/-! ## Lemmas about the live conversation handlers -/

theorem segmentSeconds_nonneg (bytes : List ℕ) : 0 ≤ segmentSeconds bytes := by
  unfold segmentSeconds
  positivity

theorem onMessage_audio_effect (clock : ℚ) (now : ℕ) (msg : LiveServerMessage)
    (s : ConvState) (bytes : List ℕ)
    (ha : msg.audioData = some bytes) (hi : msg.interrupted = false)
    (hctx : s.outputCtx.isSome = true) (hnode : s.outputNode = true) :
    (onMessageHandler clock now msg s).sources =
      s.sources ++ [⟨max s.nextStartTime clock, segmentSeconds bytes⟩] ∧
    (onMessageHandler clock now msg s).nextStartTime =
      max s.nextStartTime clock + segmentSeconds bytes ∧
    (onMessageHandler clock now msg s).outputCtx = s.outputCtx ∧
    (onMessageHandler clock now msg s).outputNode = s.outputNode := by
  unfold onMessageHandler
  simp only [ha, hi, Bool.false_eq_true, if_false]
  split <;> simp [hctx, hnode]

theorem onMessage_interrupt_effect (clock : ℚ) (now : ℕ) (msg : LiveServerMessage)
    (s : ConvState)
    (hi : msg.interrupted = true) (ha : msg.audioData = none) :
    (onMessageHandler clock now msg s).sources = [] ∧
    (onMessageHandler clock now msg s).nextStartTime = 0 ∧
    (onMessageHandler clock now msg s).stoppedSegments =
      s.stoppedSegments ++ s.sources ∧
    (onMessageHandler clock now msg s).outputCtx = s.outputCtx ∧
    (onMessageHandler clock now msg s).outputNode = s.outputNode := by
  unfold onMessageHandler
  simp only [ha, hi, if_true]
  split <;> simp

/-! ## Claim theorems -/

/-- C1: every inbound audio payload is scheduled to start at the later of
the playback clock and the watermark, the watermark then advances by
exactly the segment duration, and two segments scheduled back to back
while the clock has not advanced give the second segment a start time
equal to the first start plus the first duration, never earlier. -/
theorem c1_gapless_scheduling (clock : ℚ) (now1 now2 : ℕ)
    (msg1 msg2 : LiveServerMessage) (s s1 s2 : ConvState)
    (bytes1 bytes2 : List ℕ)
    (h1a : msg1.audioData = some bytes1) (h1i : msg1.interrupted = false)
    (h2a : msg2.audioData = some bytes2) (h2i : msg2.interrupted = false)
    (hctx : s.outputCtx.isSome = true) (hnode : s.outputNode = true)
    (hs1 : s1 = onMessageHandler clock now1 msg1 s)
    (hs2 : s2 = onMessageHandler clock now2 msg2 s1) :
    s1.sources = s.sources ++
      [⟨max s.nextStartTime clock, segmentSeconds bytes1⟩] ∧
    s1.nextStartTime = max s.nextStartTime clock + segmentSeconds bytes1 ∧
    s2.sources = s.sources ++
      [⟨max s.nextStartTime clock, segmentSeconds bytes1⟩,
       ⟨max s.nextStartTime clock + segmentSeconds bytes1, segmentSeconds bytes2⟩] ∧
    max s.nextStartTime clock ≤
      max s.nextStartTime clock + segmentSeconds bytes1 := by
  obtain ⟨e1src, e1next, e1ctx, e1node⟩ :=
    onMessage_audio_effect clock now1 msg1 s bytes1 h1a h1i hctx hnode
  rw [← hs1] at e1src e1next e1ctx e1node
  obtain ⟨e2src, e2next, _, _⟩ :=
    onMessage_audio_effect clock now2 msg2 s1 bytes2 h2a h2i
      (by rw [e1ctx]; exact hctx) (by rw [e1node]; exact hnode)
  rw [← hs2] at e2src e2next
  have hstart1 : clock ≤ max s.nextStartTime clock := le_max_right _ _
  have hd1 : 0 ≤ segmentSeconds bytes1 := segmentSeconds_nonneg bytes1
  have hmax2 : max s1.nextStartTime clock =
      max s.nextStartTime clock + segmentSeconds bytes1 := by
    rw [e1next]
    exact max_eq_left (by linarith)
  refine ⟨e1src, e1next, ?_, by linarith⟩
  rw [e2src, e1src, hmax2]
  simp

/-- C2: an interruption signal stops every currently scheduled segment,
empties the active-segment set and resets the watermark to zero in the
same callback, and a subsequent inbound audio segment is scheduled at or
after the current playback clock rather than at the stale watermark. -/
theorem c2_interruption_reset (clock1 clock2 : ℚ) (now1 now2 : ℕ)
    (msg1 msg2 : LiveServerMessage) (s s1 s2 : ConvState) (bytes2 : List ℕ)
    (h1i : msg1.interrupted = true) (h1a : msg1.audioData = none)
    (h2a : msg2.audioData = some bytes2) (h2i : msg2.interrupted = false)
    (hctx : s.outputCtx.isSome = true) (hnode : s.outputNode = true)
    (hs1 : s1 = onMessageHandler clock1 now1 msg1 s)
    (hs2 : s2 = onMessageHandler clock2 now2 msg2 s1) :
    s1.sources = [] ∧
    s1.nextStartTime = 0 ∧
    s1.stoppedSegments = s.stoppedSegments ++ s.sources ∧
    s2.sources = [⟨max 0 clock2, segmentSeconds bytes2⟩] ∧
    clock2 ≤ max 0 clock2 := by
  obtain ⟨e1src, e1next, e1stop, e1ctx, e1node⟩ :=
    onMessage_interrupt_effect clock1 now1 msg1 s h1i h1a
  rw [← hs1] at e1src e1next e1stop e1ctx e1node
  obtain ⟨e2src, _, _, _⟩ :=
    onMessage_audio_effect clock2 now2 msg2 s1 bytes2 h2a h2i
      (by rw [e1ctx]; exact hctx) (by rw [e1node]; exact hnode)
  rw [← hs2] at e2src
  refine ⟨e1src, e1next, e1stop, ?_, le_max_right _ _⟩
  rw [e2src, e1src, e1next]
  simp

/-- C6: a turn-completion signal appends at most two transcript entries —
a user entry exactly when the input buffer is non-empty, then a model
entry exactly when the output buffer is non-empty — tags them with
distinct increasing identifiers, and clears both buffers. -/
theorem c6_turn_completion (clock : ℚ) (now : ℕ) (msg : LiveServerMessage)
    (s s' : ConvState)
    (ht : msg.turnComplete = true)
    (hs : s' = onMessageHandler clock now msg s) :
    s'.transcripts.length ≤ s.transcripts.length + 2 ∧
    s'.transcripts = s.transcripts
      ++ (if s.currentInputTranscription ++ msg.inputTranscriptionText.getD "" = ""
          then []
          else [⟨now, Speaker.user,
                 s.currentInputTranscription ++ msg.inputTranscriptionText.getD ""⟩])
      ++ (if s.currentOutputTranscription ++ msg.outputTranscriptionText.getD "" = ""
          then []
          else [⟨now + 1, Speaker.model,
                 s.currentOutputTranscription ++ msg.outputTranscriptionText.getD ""⟩]) ∧
    (s.currentInputTranscription ++ msg.inputTranscriptionText.getD "" = "" →
     s.currentOutputTranscription ++ msg.outputTranscriptionText.getD "" ≠ "" →
      s'.transcripts = s.transcripts
        ++ [⟨now + 1, Speaker.model,
             s.currentOutputTranscription ++ msg.outputTranscriptionText.getD ""⟩]) ∧
    List.Pairwise (fun a b => a.id < b.id)
      (s'.transcripts.drop s.transcripts.length) ∧
    s'.currentInputTranscription = "" ∧
    s'.currentOutputTranscription = "" := by
  have heq : s'.transcripts = s.transcripts
      ++ (if s.currentInputTranscription ++ msg.inputTranscriptionText.getD "" = ""
          then []
          else [⟨now, Speaker.user,
                 s.currentInputTranscription ++ msg.inputTranscriptionText.getD ""⟩])
      ++ (if s.currentOutputTranscription ++ msg.outputTranscriptionText.getD "" = ""
          then []
          else [⟨now + 1, Speaker.model,
                 s.currentOutputTranscription ++ msg.outputTranscriptionText.getD ""⟩]) ∧
      s'.currentInputTranscription = "" ∧
      s'.currentOutputTranscription = "" := by
    subst hs
    unfold onMessageHandler
    simp only [ht, if_true]
    split <;> split <;> (try split) <;> simp
  obtain ⟨heq, hbi, hbo⟩ := heq
  refine ⟨?_, heq, ?_, ?_, hbi, hbo⟩
  · rw [heq]
    simp only [List.append_assoc, List.length_append]
    split_ifs <;> simp
  · intro h1 h2
    rw [heq, h1, if_pos rfl, if_neg h2]
    simp
  · rw [heq, List.append_assoc, List.drop_left]
    split_ifs <;> simp

theorem closeCtx_ne_open : ∀ o : Option Bool, closeCtx o ≠ some true
  | none => by decide
  | some true => by decide
  | some false => by decide

theorem closeCtx_idem : ∀ o : Option Bool, closeCtx (closeCtx o) = closeCtx o
  | none => by decide
  | some true => by decide
  | some false => by decide

theorem releasedOf_false : ∀ (m : Option (List Bool)), ∀ t ∈ releasedOf m, t = false := by
  intro m t ht
  cases m with
  | none => simp [releasedOf] at ht
  | some ts =>
    simp only [releasedOf, List.mem_map] at ht
    obtain ⟨_, _, h⟩ := ht
    exact h.symm

theorem cleanup_cleanedUp (s : ConvState)
    (hrel : ∀ t ∈ s.releasedTracks, t = false) :
    cleanedUp (cleanup s) := by
  refine ⟨rfl, ?_, closeCtx_ne_open _, closeCtx_ne_open _, rfl, rfl, rfl⟩
  intro t ht
  rcases List.mem_append.mp ht with h | h
  · exact hrel t h
  · exact releasedOf_false s.mediaStream t h

/-- C3: the conversation stop path is total and idempotent — run once or
twice from any state, including one where setup is only partially
complete, it leaves no media track active, no audio context open, an
empty scheduled-segment set and null capture and processing node refs,
and the second run changes nothing (both runs being Lean functions, no
invocation can throw); the outcome is also independent of whether the
session-handle close fails. -/
theorem c3_stop_idempotent (b b2 : Bool) (s : ConvState)
    (hrel : ∀ t ∈ s.releasedTracks, t = false) :
    cleanedUp (stopConversation b s) ∧
    cleanedUp (stopConversation b2 (stopConversation b s)) ∧
    stopConversation b2 (stopConversation b s) = stopConversation b s ∧
    stopConversation b s = stopConversation b2 s := by
  have h1 : cleanedUp (stopConversation b s) :=
    cleanup_cleanedUp _ hrel
  have heq : stopConversation b2 (stopConversation b s) = stopConversation b s := by
    cases s
    simp [stopConversation, cleanup, closeCtx_idem, releasedOf]
  exact ⟨h1, by rw [heq]; exact h1, heq, rfl⟩

/-- Demonstration state: a fully active conversation session with one
scheduled playback segment and no error set. -/
def demoActiveState : ConvState :=
  { isSessionActive := true,
    transcripts := [],
    error := none,
    sessionPromise := true,
    mediaStream := some [true],
    inputCtx := some true,
    outputCtx := some true,
    outputNode := true,
    scriptProcessor := true,
    mediaStreamSource := true,
    sources := [⟨0, 1 / 24000⟩],
    nextStartTime := 1 / 24000,
    currentInputTranscription := "",
    currentOutputTranscription := "",
    stoppedSegments := [],
    releasedTracks := [] }

/-- C3 witness: the stop path run twice on a concrete active state. -/
theorem c3_stop_idempotent_witness :
    cleanedUp (stopConversation true demoActiveState) ∧
    cleanedUp (stopConversation false (stopConversation true demoActiveState)) ∧
    stopConversation false (stopConversation true demoActiveState) =
      stopConversation true demoActiveState ∧
    stopConversation true demoActiveState = stopConversation false demoActiveState :=
  c3_stop_idempotent true false demoActiveState (by simp [demoActiveState])

/-- C7 counterexample: on a concrete active session with no prior error,
the remote-close callback leaves the error state empty — no generic
conversation error message is surfaced to the user, contrary to the
claim that a remote close surfaces one. -/
theorem c7_close_no_error_counterexample :
    (onCloseHandler false demoActiveState).error = none := rfl

/-- C7 (amended): a transport error and a remote close both funnel
through the same stop path, leaving the session fully torn down; the
transport-error callback surfaces the single generic conversation error
message, while the remote-close callback surfaces no message and leaves
the error state unchanged. -/
theorem c7_error_close_teardown (b : Bool) (s : ConvState)
    (hrel : ∀ t ∈ s.releasedTracks, t = false) :
    onErrorHandler b s =
      stopConversation b { s with error := some conversationErrorMsg } ∧
    onCloseHandler b s = stopConversation b s ∧
    cleanedUp (onErrorHandler b s) ∧
    cleanedUp (onCloseHandler b s) ∧
    (onErrorHandler b s).error = some conversationErrorMsg ∧
    (onCloseHandler b s).error = s.error := by
  refine ⟨rfl, rfl, ?_, ?_, rfl, rfl⟩
  · exact cleanup_cleanedUp _ hrel
  · exact cleanup_cleanedUp _ hrel

/-- C7 witness: both callbacks applied to the concrete active state. -/
theorem c7_error_close_teardown_witness :
    onErrorHandler true demoActiveState =
      stopConversation true
        { demoActiveState with error := some conversationErrorMsg } ∧
    onCloseHandler true demoActiveState = stopConversation true demoActiveState ∧
    cleanedUp (onErrorHandler true demoActiveState) ∧
    cleanedUp (onCloseHandler true demoActiveState) ∧
    (onErrorHandler true demoActiveState).error = some conversationErrorMsg ∧
    (onCloseHandler true demoActiveState).error = demoActiveState.error :=
  c7_error_close_teardown true demoActiveState (by simp [demoActiveState])

/-- C8: while a session is active the Start control is a no-op guarded by
the session state — the render only offers the Start button when no
session is active, so a start click neither opens a second session nor
disturbs the active one. -/
theorem c8_single_session (micOk : Bool) (s : ConvState)
    (h : s.isSessionActive = true) :
    clickStart micOk s = s := by
  simp [clickStart, h]

/-- C8 witness: clicking Start on the concrete active state. -/
theorem c8_single_session_witness :
    clickStart true demoActiveState = demoActiveState :=
  c8_single_session true demoActiveState rfl

/-- C4: when the fenced JSON block is absent from the response text, or
its captured content does not parse as valid JSON, `getNearbyPlaces`
fails with the single user-facing format error and produces no partial
place results. -/
theorem c4_format_error (parseJson : String → Option Json) (text : String)
    (h : extractJsonBlock text = none ∨
         ∃ c, extractJsonBlock text = some c ∧ parseJson c = none) :
    getNearbyPlaces parseJson text = Except.error badFormatMsg := by
  rcases h with h | ⟨c, hc, hp⟩
  · simp [getNearbyPlaces, h]
  · simp [getNearbyPlaces, hc, hp]

/-- Response text without any fenced JSON block. -/
def demoBadText : String := "The guide description has no code fence."

/-- C4 witness: a concrete fence-free response fails with the format
error. -/
theorem c4_format_error_witness :
    getNearbyPlaces (fun _ => none) demoBadText = Except.error badFormatMsg :=
  c4_format_error (fun _ => none) demoBadText (Or.inl (by decide))

/-- C10: whenever the fenced block is present and the platform parser
returns any JSON value at all — an object, an array of strings, anything
syntactically valid — `getNearbyPlaces` returns that value unchanged as
the places result, inspecting no field of any record. -/
theorem c10_parsed_value_unchanged (parseJson : String → Option Json)
    (text c : String) (v : Json)
    (hc : extractJsonBlock text = some c) (hv : parseJson c = some v) :
    getNearbyPlaces parseJson text = Except.ok v := by
  simp [getNearbyPlaces, hc, hv]

/-- Response text with a well-formed fenced block whose content is a JSON
array of strings rather than an array of place records. -/
def demoGoodText : String :=
  "Intro.\n```json\n[\"river walk\", \"old mill\"]\n```\nDone."

/-- A concrete stand-in for the platform JSON parser on the fenced
content above. -/
def demoParse (s : String) : Option Json :=
  if s = "[\"river walk\", \"old mill\"]" then
    some (Json.arr [Json.str "river walk", Json.str "old mill"])
  else none

/-- C10 witness: the array of strings comes back unchanged. -/
theorem c10_parsed_value_unchanged_witness :
    getNearbyPlaces demoParse demoGoodText =
      Except.ok (Json.arr [Json.str "river walk", Json.str "old mill"]) :=
  c10_parsed_value_unchanged demoParse demoGoodText
    "[\"river walk\", \"old mill\"]"
    (Json.arr [Json.str "river walk", Json.str "old mill"])
    (by decide) rfl

/-- C5: a successful discovery response with N parsed place records
yields exactly N decorated entries, each carrying a non-empty
illustration chosen by a case-insensitive substring match of the
category against the fixed vocabulary, with the generic fallback when no
term matches. -/
theorem c5_decoration (places : List PlaceInfo) (q : PlaceInfo)
    (hq : q ∈ decoratePlaces places) :
    (decoratePlaces places).length = places.length ∧
    ∃ url, q.imageUrl = some url ∧ url ≠ "" ∧
      url = specCategoryImage q.category := by
  refine ⟨by simp [decoratePlaces], ?_⟩
  obtain ⟨p, hp, hq⟩ := List.mem_map.mp hq
  subst hq
  refine ⟨getCategoryImage (some p.category), rfl, ?_, ?_⟩
  · rw [getCategoryImage_eq_specImage]
    exact specImage_ne_empty _
  · rw [getCategoryImage_eq_specImage]
    rfl

/-- Demonstration parsed place records. -/
def demoPlaces : List PlaceInfo :=
  [⟨"Whispering Alley", "An acoustic oddity.", "A narrow street.", "History", none⟩,
   ⟨"Night Market", "Snack stalls at dusk.", "Taste the city.", "Street Food", none⟩]

/-- C5 witness: decorating the concrete parsed records. -/
theorem c5_decoration_witness :
    (decoratePlaces demoPlaces).length = demoPlaces.length ∧
    ∃ url,
      (decoratePlace ⟨"Whispering Alley", "An acoustic oddity.",
        "A narrow street.", "History", none⟩).imageUrl = some url ∧
      url ≠ "" ∧
      url = specCategoryImage (decoratePlace ⟨"Whispering Alley",
        "An acoustic oddity.", "A narrow street.", "History", none⟩).category :=
  c5_decoration demoPlaces _ (by simp [decoratePlaces, demoPlaces])

/-- C9: encoding a sample sequence with `createAudioBlob` and decoding
the payload with `decodeAudioData` round-trips each sample to within one
16-bit quantization step for values in the valid interval including the
boundaries, and clamps out-of-range values rather than wrapping them:
every decoded sample lies within one step of the clamped input and
inside the valid interval itself. -/
theorem c9_codec_roundtrip (samples : List ℚ) (i : ℕ) (s : ℚ)
    (hs : samples[i]? = some s) :
    ∃ mono r,
      decodeAudioData (createAudioBlob samples).data 16000 1 = [mono] ∧
      mono.length = samples.length ∧
      mono[i]? = some r ∧
      |r - clampSample s| ≤ 1 / 32768 ∧
      (-1 : ℚ) ≤ r ∧ r ≤ 1 ∧
      ((-1 : ℚ) ≤ s → s ≤ 1 → |r - s| ≤ 1 / 32768) := by
  have hdec : decodeAudioData (createAudioBlob samples).data 16000 1 =
      [pcmSamples (pcmEncode samples)] := by
    simp [decodeAudioData, createAudioBlob, deinterleave_one]
  rw [pcm_roundtrip] at hdec
  refine ⟨_, (quantizeSample s : ℚ) / 32768, hdec, by simp, ?_, ?_, ?_, ?_, ?_⟩
  · rw [List.getElem?_map, hs]
    rfl
  · exact quantize_near_clamp s
  · have hlb : ((-32768 : ℤ) : ℚ) ≤ ((quantizeSample s : ℤ) : ℚ) := by
      exact_mod_cast quantize_lb s
    push_cast at hlb
    linarith
  · have hub : ((quantizeSample s : ℤ) : ℚ) ≤ ((32767 : ℤ) : ℚ) := by
      exact_mod_cast quantize_ub s
    push_cast at hub
    linarith
  · intro h1 h2
    have hcl : clampSample s = s := by
      unfold clampSample
      rw [min_eq_right h2, max_eq_right h1]
    have hnear := quantize_near_clamp s
    rw [hcl] at hnear
    exact hnear

/-- C9 witness: the boundary sample 1 round-trips within one step, and
the decoded value stays inside the valid interval. -/
theorem c9_codec_roundtrip_witness :
    ∃ mono r,
      decodeAudioData (createAudioBlob [(1 : ℚ), -1, 2]).data 16000 1 = [mono] ∧
      mono.length = ([(1 : ℚ), -1, 2]).length ∧
      mono[0]? = some r ∧
      |r - clampSample 1| ≤ 1 / 32768 ∧
      (-1 : ℚ) ≤ r ∧ r ≤ 1 ∧
      |r - 1| ≤ 1 / 32768 := by
  obtain ⟨mono, r, h1, h2, h3, h4, h5, h6, h7⟩ :=
    c9_codec_roundtrip [(1 : ℚ), -1, 2] 0 1 rfl
  exact ⟨mono, r, h1, h2, h3, h4, h5, h6, h7 (by norm_num) (by norm_num)⟩

/-- Inbound message carrying a two-sample audio payload only. -/
def demoAudioMsgA : LiveServerMessage :=
  { inputTranscriptionText := none, outputTranscriptionText := none,
    turnComplete := false, audioData := some [16, 0, 240, 255],
    interrupted := false }

/-- Inbound message carrying a one-sample audio payload only. -/
def demoAudioMsgB : LiveServerMessage :=
  { inputTranscriptionText := none, outputTranscriptionText := none,
    turnComplete := false, audioData := some [0, 4], interrupted := false }

/-- Inbound pure interruption signal. -/
def demoInterruptMsg : LiveServerMessage :=
  { inputTranscriptionText := none, outputTranscriptionText := none,
    turnComplete := false, audioData := none, interrupted := true }

/-- Inbound pure turn-completion signal. -/
def demoTurnMsg : LiveServerMessage :=
  { inputTranscriptionText := none, outputTranscriptionText := none,
    turnComplete := true, audioData := none, interrupted := false }

/-- C1 witness: two concrete audio payloads scheduled back to back on
the concrete active state with the playback clock at 2. -/
theorem c1_gapless_scheduling_witness :
    (onMessageHandler 2 5 demoAudioMsgA demoActiveState).sources =
      demoActiveState.sources ++
        [⟨max demoActiveState.nextStartTime 2, segmentSeconds [16, 0, 240, 255]⟩] ∧
    (onMessageHandler 2 5 demoAudioMsgA demoActiveState).nextStartTime =
      max demoActiveState.nextStartTime 2 + segmentSeconds [16, 0, 240, 255] ∧
    (onMessageHandler 2 6 demoAudioMsgB
        (onMessageHandler 2 5 demoAudioMsgA demoActiveState)).sources =
      demoActiveState.sources ++
        [⟨max demoActiveState.nextStartTime 2, segmentSeconds [16, 0, 240, 255]⟩,
         ⟨max demoActiveState.nextStartTime 2 + segmentSeconds [16, 0, 240, 255],
          segmentSeconds [0, 4]⟩] ∧
    max demoActiveState.nextStartTime 2 ≤
      max demoActiveState.nextStartTime 2 + segmentSeconds [16, 0, 240, 255] :=
  c1_gapless_scheduling 2 5 6 demoAudioMsgA demoAudioMsgB demoActiveState _ _
    [16, 0, 240, 255] [0, 4] rfl rfl rfl rfl rfl rfl rfl rfl

/-- C2 witness: a concrete interruption with one scheduled segment,
followed by a fresh audio payload with the playback clock at 4. -/
theorem c2_interruption_reset_witness :
    (onMessageHandler 3 7 demoInterruptMsg demoActiveState).sources = [] ∧
    (onMessageHandler 3 7 demoInterruptMsg demoActiveState).nextStartTime = 0 ∧
    (onMessageHandler 3 7 demoInterruptMsg demoActiveState).stoppedSegments =
      demoActiveState.stoppedSegments ++ demoActiveState.sources ∧
    (onMessageHandler 4 8 demoAudioMsgB
        (onMessageHandler 3 7 demoInterruptMsg demoActiveState)).sources =
      [⟨max 0 4, segmentSeconds [0, 4]⟩] ∧
    (4 : ℚ) ≤ max 0 4 :=
  c2_interruption_reset 3 4 7 8 demoInterruptMsg demoAudioMsgB demoActiveState _ _
    [0, 4] rfl rfl rfl rfl rfl rfl rfl rfl

/-- Active state with an empty input buffer and a non-empty output
buffer, as left by output-only transcription fragments. -/
def demoTurnState : ConvState :=
  { demoActiveState with
    currentInputTranscription := "",
    currentOutputTranscription := "Welcome to the old town." }

/-- C6 witness: a concrete turn completion with an empty input buffer
and a non-empty output buffer appends exactly one model entry. -/
theorem c6_turn_completion_witness :
    (onMessageHandler 0 41 demoTurnMsg demoTurnState).transcripts.length ≤
      demoTurnState.transcripts.length + 2 ∧
    (onMessageHandler 0 41 demoTurnMsg demoTurnState).transcripts =
      demoTurnState.transcripts
        ++ (if demoTurnState.currentInputTranscription ++
              demoTurnMsg.inputTranscriptionText.getD "" = "" then []
            else [⟨41, Speaker.user,
                   demoTurnState.currentInputTranscription ++
                     demoTurnMsg.inputTranscriptionText.getD ""⟩])
        ++ (if demoTurnState.currentOutputTranscription ++
              demoTurnMsg.outputTranscriptionText.getD "" = "" then []
            else [⟨41 + 1, Speaker.model,
                   demoTurnState.currentOutputTranscription ++
                     demoTurnMsg.outputTranscriptionText.getD ""⟩]) ∧
    (onMessageHandler 0 41 demoTurnMsg demoTurnState).transcripts =
      demoTurnState.transcripts
        ++ [⟨41 + 1, Speaker.model,
             demoTurnState.currentOutputTranscription ++
               demoTurnMsg.outputTranscriptionText.getD ""⟩] ∧
    List.Pairwise (fun a b => a.id < b.id)
      ((onMessageHandler 0 41 demoTurnMsg demoTurnState).transcripts.drop
        demoTurnState.transcripts.length) ∧
    (onMessageHandler 0 41 demoTurnMsg demoTurnState).currentInputTranscription =
      "" ∧
    (onMessageHandler 0 41 demoTurnMsg demoTurnState).currentOutputTranscription =
      "" := by
  obtain ⟨ha, hb, hc, hd, he, hf⟩ :=
    c6_turn_completion 0 41 demoTurnMsg demoTurnState _ rfl rfl
  exact ⟨ha, hb, hc rfl (by decide), hd, he, hf⟩

end GeoNarrator
